import Mathlib

/-!
Shallow embedding of the sockpp library core (Packet codec, IpAddress,
Socket lifecycle, UDP send/bind/receive, TCP listener, and the framed
stream-receive state machine), together with theorems checking the
natural-language specification against the code.

Bytes are modelled as natural numbers below 256; C++ `size_t` arithmetic
is modelled as mathematical naturals, with the 64-bit wrap made explicit
(`% 2 ^ 64`) exactly where the source's unsigned arithmetic can overflow
(Packet::checkSize).  C++ in/out reference parameters are modelled by
passing the prior value in and returning the new value.
-/

namespace Sockpp

/-- Modulus of C++ `size_t` arithmetic (64-bit platforms). -/
def U64_MOD : Nat := 2 ^ 64

/-- State of `sockpp::Packet` (include/sockpp/Packet.h): byte buffer,
read cursor, send cursor, sticky validity flag. -/
structure Packet where
  m_data : List Nat
  m_readPos : Nat
  m_sendPos : Nat
  m_isValid : Bool
deriving DecidableEq

/-- A default-constructed (empty) packet. -/
def emptyPacket : Packet := ⟨[], 0, 0, true⟩

/-- `Packet::append(data, sizeInBytes)` (SocketImpl.h:295-301): inserts
`sizeInBytes` bytes read from `data` when the pointer is non-null and the
size is positive; otherwise does nothing.  A null pointer is `none`; the
bytes reachable through a non-null pointer are `some bytes`. -/
def append (p : Packet) (data : Option (List Nat)) (sizeInBytes : Nat) : Packet :=
  match data with
  | none => p
  | some bytes =>
    if 0 < sizeInBytes then { p with m_data := p.m_data ++ bytes.take sizeInBytes } else p

/-- `Packet::clear()` (SocketImpl.h:305-309): empties the buffer, resets
the read cursor and restores validity (the send cursor is untouched). -/
def clear (p : Packet) : Packet :=
  { p with m_data := [], m_readPos := 0, m_isValid := true }

/-- `Packet::checkSize(size)` (SocketImpl.h:674-680).  The sum
`m_readPos + size` is computed in `size_t`, hence reduced `% 2 ^ 64`;
overflow is detected by comparing the wrapped sum with `m_readPos`.
Returns the updated packet and the new validity flag. -/
def checkSize (p : Packet) (size : Nat) : Packet × Bool :=
  let s := (p.m_readPos + size) % U64_MOD
  let valid := p.m_isValid && decide (s ≤ p.m_data.length) && !(decide (s < p.m_readPos))
  ({ p with m_isValid := valid }, valid)

/-- The `n` bytes of the buffer starting at the read cursor. -/
def bytesAt (p : Packet) (n : Nat) : List Nat :=
  (p.m_data.drop p.m_readPos).take n

/-- Big-endian (network byte order) decoding of a byte list, as performed
by `ntohs`/`ntohl`/the manual `ToInteger` fold (SocketImpl.h:278-289). -/
def decodeBE (bytes : List Nat) : Nat :=
  bytes.foldl (fun acc b => acc * 256 + b) 0

/-- Big-endian encoding of a 16-bit value (`htons`). -/
def encode16 (v : Nat) : List Nat := [v / 2 ^ 8 % 256, v % 256]

/-- Big-endian encoding of a 32-bit value (`htonl`). -/
def encode32 (v : Nat) : List Nat :=
  [v / 2 ^ 24 % 256, v / 2 ^ 16 % 256, v / 2 ^ 8 % 256, v % 256]

/-- Big-endian encoding of a 64-bit value (manual byte shifts,
SocketImpl.h:569-573 / 583-587). -/
def encode64 (v : Nat) : List Nat :=
  [v / 2 ^ 56 % 256, v / 2 ^ 48 % 256, v / 2 ^ 40 % 256, v / 2 ^ 32 % 256,
   v / 2 ^ 24 % 256, v / 2 ^ 16 % 256, v / 2 ^ 8 % 256, v % 256]

/-- Two's-complement reinterpretation of an `n`-byte unsigned value as a
signed value, as done by the casts in the signed extraction operators. -/
def toSigned (n : Nat) (u : Nat) : Int :=
  if u < 2 ^ (8 * n) / 2 then (u : Int) else (u : Int) - 2 ^ (8 * n)

/-- Two's-complement representation of a signed value in `n` bytes, as
done by the casts in the signed insertion operators. -/
def toUnsigned (n : Nat) (v : Int) : Nat := (v % ((2 : Int) ^ (8 * n))).toNat

/-! ### Insertion operators (`Packet::operator<<`, SocketImpl.h:526-601) -/

/-- `operator<<(std::uint8_t)`: appends the byte verbatim. -/
def writeU8 (p : Packet) (v : Nat) : Packet := append p (some [v]) 1

/-- `operator<<(bool)`: writes the byte 1 or 0. -/
def writeBool (p : Packet) (b : Bool) : Packet := writeU8 p (if b then 1 else 0)

/-- `operator<<(std::int8_t)`: appends the two's-complement byte. -/
def writeI8 (p : Packet) (v : Int) : Packet := append p (some [toUnsigned 1 v]) 1

/-- `operator<<(std::uint16_t)`: `htons` then append. -/
def writeU16 (p : Packet) (v : Nat) : Packet := append p (some (encode16 v)) 2

/-- `operator<<(std::int16_t)`: cast to `uint16_t`, `htons`, append. -/
def writeI16 (p : Packet) (v : Int) : Packet := append p (some (encode16 (toUnsigned 2 v))) 2

/-- `operator<<(std::uint32_t)`: `htonl` then append. -/
def writeU32 (p : Packet) (v : Nat) : Packet := append p (some (encode32 v)) 4

/-- `operator<<(std::int32_t)`: cast to `uint32_t`, `htonl`, append. -/
def writeI32 (p : Packet) (v : Int) : Packet := append p (some (encode32 (toUnsigned 4 v))) 4

/-- `operator<<(std::uint64_t)`: manual big-endian byte array, append. -/
def writeU64 (p : Packet) (v : Nat) : Packet := append p (some (encode64 v)) 8

/-- `operator<<(std::int64_t)`: shifts of the two's-complement value. -/
def writeI64 (p : Packet) (v : Int) : Packet := append p (some (encode64 (toUnsigned 8 v))) 8

/-- `operator<<(float)`: `memcpy` of the 4-byte object representation
(no byte-order conversion); the value is modelled by its bytes. -/
def writeFloat (p : Packet) (bits : List Nat) : Packet := append p (some bits) 4

/-- `operator<<(double)`: `memcpy` of the 8-byte object representation. -/
def writeDouble (p : Packet) (bits : List Nat) : Packet := append p (some bits) 8

/-! ### Extraction operators (`Packet::operator>>`, SocketImpl.h:319-524)

Each C++ operator writes through an out-reference only on success; this is
modelled by passing the prior value of the output variable and returning
the (possibly unchanged) new value. -/

/-- Common body of the unsigned fixed-width extraction operators:
`checkSize(n)`, then `memcpy` + byte-order normalisation (big-endian
decode) and cursor advance on success; the output keeps its prior value
on failure. -/
def readN (n : Nat) (p : Packet) (prior : Nat) : Packet × Nat :=
  let c := checkSize p n
  if c.2 then
    ({ c.1 with m_readPos := c.1.m_readPos + n }, decodeBE (bytesAt c.1 n))
  else
    (c.1, prior)

/-- Common body of the signed fixed-width extraction operators. -/
def readSigned (n : Nat) (p : Packet) (prior : Int) : Packet × Int :=
  let c := checkSize p n
  if c.2 then
    ({ c.1 with m_readPos := c.1.m_readPos + n }, toSigned n (decodeBE (bytesAt c.1 n)))
  else
    (c.1, prior)

/-- `operator>>(std::uint8_t&)`. -/
def readU8 (p : Packet) (prior : Nat) : Packet × Nat := readN 1 p prior

/-- `operator>>(std::uint16_t&)`. -/
def readU16 (p : Packet) (prior : Nat) : Packet × Nat := readN 2 p prior

/-- `operator>>(std::uint32_t&)`. -/
def readU32 (p : Packet) (prior : Nat) : Packet × Nat := readN 4 p prior

/-- `operator>>(std::uint64_t&)`. -/
def readU64 (p : Packet) (prior : Nat) : Packet × Nat := readN 8 p prior

/-- `operator>>(std::int8_t&)`. -/
def readI8 (p : Packet) (prior : Int) : Packet × Int := readSigned 1 p prior

/-- `operator>>(std::int16_t&)`. -/
def readI16 (p : Packet) (prior : Int) : Packet × Int := readSigned 2 p prior

/-- `operator>>(std::int32_t&)`. -/
def readI32 (p : Packet) (prior : Int) : Packet × Int := readSigned 4 p prior

/-- `operator>>(std::int64_t&)`. -/
def readI64 (p : Packet) (prior : Int) : Packet × Int := readSigned 8 p prior

/-- `operator>>(bool&)` (SocketImpl.h:319-326): extracts a `uint8_t`
(initialised to 0) and assigns `value != 0` only if the packet tests
valid afterwards. -/
def readBool (p : Packet) (prior : Bool) : Packet × Bool :=
  let r := readN 1 p 0
  if r.1.m_isValid then (r.1, r.2 != 0) else (r.1, prior)

/-- `operator>>(float&)`: `memcpy` of 4 bytes, no conversion. -/
def readFloat (p : Packet) (prior : List Nat) : Packet × List Nat :=
  let c := checkSize p 4
  if c.2 then
    ({ c.1 with m_readPos := c.1.m_readPos + 4 }, bytesAt c.1 4)
  else
    (c.1, prior)

/-- `operator>>(double&)`: `memcpy` of 8 bytes, no conversion. -/
def readDouble (p : Packet) (prior : List Nat) : Packet × List Nat :=
  let c := checkSize p 8
  if c.2 then
    ({ c.1 with m_readPos := c.1.m_readPos + 8 }, bytesAt c.1 8)
  else
    (c.1, prior)

/-- `operator>>(char*)` (SocketImpl.h:434-451): extracts a `uint32_t`
length (initialised to 0), and only when the length is positive and
`checkSize(length)` passes copies the bytes plus a NUL terminator into the
caller's buffer; otherwise the buffer is untouched.  The buffer contents
are modelled as a byte list. -/
def readCStr (p : Packet) (prior : List Nat) : Packet × List Nat :=
  let r := readN 4 p 0
  if 0 < r.2 then
    let c := checkSize r.1 r.2
    if c.2 then
      ({ c.1 with m_readPos := c.1.m_readPos + r.2 }, bytesAt c.1 r.2 ++ [0])
    else
      (c.1, prior)
  else
    (r.1, prior)

/-- `operator>>(std::string&)` (SocketImpl.h:453-468): extracts a
`uint32_t` length, then calls `data.clear()` unconditionally, then
assigns the bytes only when the length is positive and `checkSize(length)`
passes.  Note the output is emptied even on failure. -/
def readString (p : Packet) (prior : List Nat) : Packet × List Nat :=
  let r := readN 4 p 0
  if 0 < r.2 then
    let c := checkSize r.1 r.2
    if c.2 then
      ({ c.1 with m_readPos := c.1.m_readPos + r.2 }, bytesAt c.1 r.2)
    else
      (c.1, [])
  else
    (r.1, [])

/-- The per-character loop shared by the wide-string extraction operators:
`count` iterations of `uint32_t character = 0; *this >> character;`
appending each decoded character to the output. -/
def readChars : Nat → Packet → List Nat → Packet × List Nat
  | 0, p, acc => (p, acc)
  | k + 1, p, acc =>
    let r := readN 4 p 0
    readChars k r.1 (acc ++ [r.2])

/-- `operator>>(wchar_t*)` (SocketImpl.h:470-488): length, then
`checkSize(length * sizeof(uint32_t))`, then the per-character loop plus a
NUL terminator; the buffer is untouched on failure. -/
def readWCStr (p : Packet) (prior : List Nat) : Packet × List Nat :=
  let r := readN 4 p 0
  if 0 < r.2 then
    let c := checkSize r.1 (r.2 * 4)
    if c.2 then
      let w := readChars r.2 c.1 []
      (w.1, w.2 ++ [0])
    else
      (c.1, prior)
  else
    (r.1, prior)

/-- `operator>>(std::wstring&)` (SocketImpl.h:490-506): length, then
`data.clear()` unconditionally, then `checkSize(length * 4)` gating the
per-character loop.  The output is emptied even on failure. -/
def readWString (p : Packet) (prior : List Nat) : Packet × List Nat :=
  let r := readN 4 p 0
  if 0 < r.2 then
    let c := checkSize r.1 (r.2 * 4)
    if c.2 then readChars r.2 c.1 [] else (c.1, [])
  else
    (r.1, [])

/-- `operator>>(std::u32string&)` (SocketImpl.h:508-524): identical
structure to the `std::wstring` overload. -/
def readU32String (p : Packet) (prior : List Nat) : Packet × List Nat :=
  let r := readN 4 p 0
  if 0 < r.2 then
    let c := checkSize r.1 (r.2 * 4)
    if c.2 then readChars r.2 c.1 [] else (c.1, [])
  else
    (r.1, [])

/-! ### Operations on a packet, for the sticky-invalidity invariant (C2) -/

/-- One mutating Packet operation: an `append` (every insertion operator
funnels through `Packet::append`) or one of the extraction operators. -/
inductive Op where
  | opAppend (data : Option (List Nat)) (n : Nat)
  | opReadBool
  | opReadI8
  | opReadU8
  | opReadI16
  | opReadU16
  | opReadI32
  | opReadU32
  | opReadI64
  | opReadU64
  | opReadFloat
  | opReadDouble
  | opReadCStr
  | opReadString
  | opReadWCStr
  | opReadWString
  | opReadU32String
deriving DecidableEq

/-- Apply one operation to a packet, discarding the extracted value. -/
def applyOp (p : Packet) : Op → Packet
  | .opAppend d n => append p d n
  | .opReadBool => (readBool p false).1
  | .opReadI8 => (readI8 p 0).1
  | .opReadU8 => (readU8 p 0).1
  | .opReadI16 => (readI16 p 0).1
  | .opReadU16 => (readU16 p 0).1
  | .opReadI32 => (readI32 p 0).1
  | .opReadU32 => (readU32 p 0).1
  | .opReadI64 => (readI64 p 0).1
  | .opReadU64 => (readU64 p 0).1
  | .opReadFloat => (readFloat p []).1
  | .opReadDouble => (readDouble p []).1
  | .opReadCStr => (readCStr p []).1
  | .opReadString => (readString p []).1
  | .opReadWCStr => (readWCStr p []).1
  | .opReadWString => (readWString p []).1
  | .opReadU32String => (readU32String p []).1

/-! ### IpAddress (IpAddress.cpp) -/

/-- `sockpp::IpAddress`: a 32-bit address plus validity flag.  The C++
object stores the address in network byte order (`htonl` applied); the
model stores the host-order 32-bit value, which determines the stored
bytes uniquely, and `inet_ntop`/comparisons are expressed against it. -/
structure IpAddress where
  m_address : Nat
  m_valid : Bool
deriving DecidableEq

/-- `IpAddress(uint8_t, uint8_t, uint8_t, uint8_t)` (IpAddress.cpp:25-27):
packs the four bytes most-significant first into a 32-bit value. -/
def ipFromBytes (b0 b1 b2 b3 : Nat) : IpAddress :=
  ⟨(b0 * 2 ^ 24 + b1 * 2 ^ 16 + b2 * 2 ^ 8 + b3) % 2 ^ 32, true⟩

/-- `IpAddress::Broadcast` (IpAddress.cpp:21). -/
def Broadcast : IpAddress := ipFromBytes 255 255 255 255

/-- `IpAddress::toInteger()`: `ntohl` of the stored value. -/
def ipToInteger (ip : IpAddress) : Nat := ip.m_address

/-- `IpAddress::toString()` (IpAddress.cpp:72-81): `inet_ntop` renders the
four stored bytes, most significant first, in dotted-decimal form. -/
def ipToString (ip : IpAddress) : String :=
  Nat.repr (ip.m_address / 2 ^ 24 % 256) ++ "." ++
  Nat.repr (ip.m_address / 2 ^ 16 % 256) ++ "." ++
  Nat.repr (ip.m_address / 2 ^ 8 % 256) ++ "." ++
  Nat.repr (ip.m_address % 256)

/-- `operator<(IpAddress, IpAddress)` (IpAddress.cpp:136-138):
lexicographic comparison of the pairs `(m_valid, m_address)`
(`false < true` on the flag). -/
def ipLt (l r : IpAddress) : Bool :=
  (!l.m_valid && r.m_valid) || (l.m_valid == r.m_valid && decide (l.m_address < r.m_address))

/-- `operator==(IpAddress, IpAddress)` (IpAddress.cpp:132):
`!(l < r) && !(r < l)`. -/
def ipEq (l r : IpAddress) : Bool := !ipLt l r && !ipLt r l

/-! ### Socket base (Socket.cpp) and status codes -/

/-- `Socket::Status` (the five-way status code). -/
inductive Status where
  | Done
  | NotReady
  | Partial
  | Disconnected
  | Error
deriving DecidableEq

/-- `Socket::Type`. -/
inductive SocketType where
  | Tcp
  | Udp
deriving DecidableEq

/-- The invalid-socket sentinel (`SocketImpl::invalidSocket()`, Unix). -/
def invalidSocket : Int := -1

/-- State of the `Socket` base class: protocol kind, native handle,
blocking flag. -/
structure Socket where
  m_type : SocketType
  m_socket : Int
  m_isBlocking : Bool
deriving DecidableEq

/-- `Socket::close()` (Socket.cpp:103-109): releases the handle if
present and resets it to the sentinel.  The returned Bool records whether
the OS `close` was invoked (a resource was released). -/
def socketClose (s : Socket) : Socket × Bool :=
  if s.m_socket ≠ invalidSocket then ({ s with m_socket := invalidSocket }, true)
  else (s, false)

/-! ### UDP socket (UdpSocket.cpp, inside SocketImpl.h) -/

/-- Modelled from the spec: `UdpSocket::MaxDatagramSize` is declared in
`UdpSocket.h`, which is not among the sources; the spec describes it as a
per-datagram ceiling just under the transport's theoretical maximum
(65535 bytes minus the 8-byte UDP and 20-byte IP headers). -/
def MaxDatagramSize : Nat := 65507

/-- `UdpSocket::send(data, size, remoteAddress, remotePort)`
(SocketImpl.h:152-180): after `create()`, rejects `size` above
`MaxDatagramSize` with `Error` before the `sendto` call; otherwise makes
exactly one `sendto` call, whose outcome is abstracted by `osSent` (the
byte count or a negative error) and `errStatus` (the mapped
`getErrorStatus()` result).  The Bool records whether `sendto` ran. -/
def udpSend (size : Nat) (osSent : Int) (errStatus : Status) : Status × Bool :=
  if MaxDatagramSize < size then (Status.Error, false)
  else (if osSent < 0 then errStatus else Status.Done, true)

/-- `UdpSocket::bind(port, address)` (SocketImpl.h:125-145): closes and
re-creates the handle, rejects the broadcast address with `Error` before
the OS `bind`, otherwise performs one `bind` call whose failure is
abstracted by `osBindFails`.  The Bool records whether `bind` ran. -/
def udpBind (port : Nat) (address : IpAddress) (osBindFails : Bool) : Status × Bool :=
  if ipEq address Broadcast then (Status.Error, false)
  else if osBindFails then (Status.Error, true)
  else (Status.Done, true)

/-- `UdpSocket::receive(Packet&, remoteAddress, remotePort)`
(SocketImpl.h:239-254): receives a datagram into the internal buffer
(abstracted by `status`, `received` and the buffer contents `buf`), then
clears the destination packet unconditionally and appends the received
bytes only when the status is `Done` and at least one byte arrived. -/
def udpReceivePacket (dest : Packet) (status : Status) (received : Nat) (buf : List Nat) :
    Packet × Status :=
  let cleared := clear dest
  if status = Status.Done ∧ 0 < received then
    (append cleared (some buf) received, status)
  else
    (cleared, status)

/-! ### TCP listener (TcpListener.cpp) -/

/-- `TcpListener::listen(port, address)` (TcpListener.cpp:33-61): closes
and re-creates the handle, rejects the broadcast address with `Error`
before any `bind`/`listen` call, then binds and listens, each OS call's
failure abstracted by a flag.  The two Bools record whether the OS
`bind` and `listen` calls ran. -/
def tcpListen (port : Nat) (address : IpAddress) (osBindFails osListenFails : Bool) :
    Status × Bool × Bool :=
  if ipEq address Broadcast then (Status.Error, false, false)
  else if osBindFails then (Status.Error, true, false)
  else if osListenFails then (Status.Error, true, true)
  else (Status.Done, true, true)

/-! ### Framed stream receive (TcpSocket, C4)

`TcpSocket::receive(Packet&)` is declared in TcpSocket.h but its
implementation file is not among the sources; the state machine below is
modelled from the spec. -/

/-- `TcpSocket::PendingPacket` (TcpSocket.h:172-176): declared frame
size, number of size-prefix bytes received so far, accumulated payload. -/
structure PendingPacket where
  size : Nat
  sizeReceived : Nat
  data : List Nat
deriving DecidableEq

/-- The reset (empty) pending-packet state. -/
def emptyPending : PendingPacket := ⟨0, 0, []⟩

/-- The frame is complete: all four prefix bytes have arrived and the
accumulated payload has reached the declared size. -/
def isComplete (st : PendingPacket) : Bool :=
  decide (4 ≤ st.sizeReceived) && decide (st.size ≤ st.data.length)

/-- Modelled from the spec: the body of `TcpSocket::receive(Packet&)`
(implementation not among the sources) driving the pending-packet state
machine over the bytes delivered by one call — (1) while the 4-byte
big-endian length prefix is incomplete, consume prefix bytes; (2) then
consume payload bytes into the accumulation buffer; (3) once the
accumulated bytes equal the declared size, the payload becomes available
and the pending state resets to empty.  Returns the new pending state and
the delivered payload, if any. -/
def deliver : PendingPacket → List Nat → PendingPacket × Option (List Nat)
  | st, [] =>
    if isComplete st then (emptyPending, some st.data) else (st, none)
  | st, b :: rest =>
    if isComplete st then (emptyPending, some st.data)
    else if st.sizeReceived < 4 then
      deliver ⟨st.size * 256 + b, st.sizeReceived + 1, st.data⟩ rest
    else
      deliver ⟨st.size, st.sizeReceived, st.data ++ [b]⟩ rest

/-- Deliver a single byte to the pending state of `acc`, as one
1-byte `receive(Packet&)` call; the previous call's result is dropped. -/
def feedOne (acc : PendingPacket × Option (List Nat)) (b : Nat) :
    PendingPacket × Option (List Nat) :=
  deliver acc.1 [b]

/-- Once a frame completes, the destination Packet is cleared and filled
with the delivered payload (`packet.clear(); packet.onReceive(data, size)`
where `onReceive` is `append`, SocketImpl.h:687). -/
def deliverToPacket (dest : Packet) (payload : List Nat) : Packet :=
  append (clear dest) (some payload) payload.length

/-! ## Helper lemmas -/

lemma checkSize_ok (p : Packet) (n : Nat) (h1 : p.m_isValid = true)
    (h2 : p.m_readPos + n ≤ p.m_data.length) (h3 : p.m_readPos + n < U64_MOD) :
    checkSize p n = (p, true) := by
  obtain ⟨d, r, s, vl⟩ := p
  simp only [checkSize, Nat.mod_eq_of_lt h3]
  simp_all

lemma readN_write (n : Nat) (bytes : List Nat) (hlen : bytes.length = n)
    (hn : n < U64_MOD) (prior : Nat) :
    readN n ⟨bytes, 0, 0, true⟩ prior = (⟨bytes, n, 0, true⟩, decodeBE bytes) := by
  rw [readN, checkSize_ok ⟨bytes, 0, 0, true⟩ n rfl (by simp [hlen]) (by simpa using hn)]
  simp [bytesAt, List.take_of_length_le, hlen.le]

lemma readSigned_write (n : Nat) (bytes : List Nat) (hlen : bytes.length = n)
    (hn : n < U64_MOD) (prior : Int) :
    readSigned n ⟨bytes, 0, 0, true⟩ prior =
      (⟨bytes, n, 0, true⟩, toSigned n (decodeBE bytes)) := by
  rw [readSigned, checkSize_ok ⟨bytes, 0, 0, true⟩ n rfl (by simp [hlen]) (by simpa using hn)]
  simp [bytesAt, List.take_of_length_le, hlen.le]

lemma decode_encode16 (u : Nat) (h : u < 2 ^ 16) : decodeBE (encode16 u) = u := by
  simp [decodeBE, encode16]; omega

lemma decode_encode32 (u : Nat) (h : u < 2 ^ 32) : decodeBE (encode32 u) = u := by
  simp [decodeBE, encode32]; omega

lemma decode_encode64 (u : Nat) (h : u < 2 ^ 64) : decodeBE (encode64 u) = u := by
  simp [decodeBE, encode64]; omega

lemma toUnsigned_lt (n : Nat) (v : Int) : toUnsigned n v < 2 ^ (8 * n) := by
  have h : (0 : Int) < 2 ^ (8 * n) := by positivity
  have h1 := Int.emod_lt_of_pos v h
  have h2 := Int.emod_nonneg v (by positivity : ((2 : Int) ^ (8 * n)) ≠ 0)
  have hcast : ((2 ^ (8 * n) : Nat) : Int) = 2 ^ (8 * n) := by push_cast; ring
  simp only [toUnsigned]
  omega

lemma toSigned_toUnsigned1 (v : Int) (h1 : -(2 ^ 7) ≤ v) (h2 : v < 2 ^ 7) :
    toSigned 1 (toUnsigned 1 v) = v := by
  simp only [toSigned, toUnsigned]
  norm_num
  omega

lemma toSigned_toUnsigned2 (v : Int) (h1 : -(2 ^ 15) ≤ v) (h2 : v < 2 ^ 15) :
    toSigned 2 (toUnsigned 2 v) = v := by
  simp only [toSigned, toUnsigned]
  norm_num
  omega

lemma toSigned_toUnsigned4 (v : Int) (h1 : -(2 ^ 31) ≤ v) (h2 : v < 2 ^ 31) :
    toSigned 4 (toUnsigned 4 v) = v := by
  simp only [toSigned, toUnsigned]
  norm_num
  omega

lemma toSigned_toUnsigned8 (v : Int) (h1 : -(2 ^ 63) ≤ v) (h2 : v < 2 ^ 63) :
    toSigned 8 (toUnsigned 8 v) = v := by
  simp only [toSigned, toUnsigned]
  norm_num
  omega

/-! ## C1 -/

/-- C1: For every supported scalar type (bool, signed/unsigned 8/16/32/64-bit
integers, float, double — floating values are modelled by their object
representation, which `operator<<`/`operator>>` copy verbatim) and every
value `v` of that type, inserting `v` into an empty packet with
`operator<<` and extracting with the matching `operator>>` yields `v` back
and leaves the packet's validity flag true. -/
theorem packet_scalar_roundtrip :
    (∀ (b : Bool) (prior : Bool),
      (readBool (writeBool emptyPacket b) prior).2 = b ∧
      (readBool (writeBool emptyPacket b) prior).1.m_isValid = true) ∧
    (∀ v : Nat, v < 2 ^ 8 → ∀ prior : Nat,
      (readU8 (writeU8 emptyPacket v) prior).2 = v ∧
      (readU8 (writeU8 emptyPacket v) prior).1.m_isValid = true) ∧
    (∀ v : Int, -(2 ^ 7) ≤ v → v < 2 ^ 7 → ∀ prior : Int,
      (readI8 (writeI8 emptyPacket v) prior).2 = v ∧
      (readI8 (writeI8 emptyPacket v) prior).1.m_isValid = true) ∧
    (∀ v : Nat, v < 2 ^ 16 → ∀ prior : Nat,
      (readU16 (writeU16 emptyPacket v) prior).2 = v ∧
      (readU16 (writeU16 emptyPacket v) prior).1.m_isValid = true) ∧
    (∀ v : Int, -(2 ^ 15) ≤ v → v < 2 ^ 15 → ∀ prior : Int,
      (readI16 (writeI16 emptyPacket v) prior).2 = v ∧
      (readI16 (writeI16 emptyPacket v) prior).1.m_isValid = true) ∧
    (∀ v : Nat, v < 2 ^ 32 → ∀ prior : Nat,
      (readU32 (writeU32 emptyPacket v) prior).2 = v ∧
      (readU32 (writeU32 emptyPacket v) prior).1.m_isValid = true) ∧
    (∀ v : Int, -(2 ^ 31) ≤ v → v < 2 ^ 31 → ∀ prior : Int,
      (readI32 (writeI32 emptyPacket v) prior).2 = v ∧
      (readI32 (writeI32 emptyPacket v) prior).1.m_isValid = true) ∧
    (∀ v : Nat, v < 2 ^ 64 → ∀ prior : Nat,
      (readU64 (writeU64 emptyPacket v) prior).2 = v ∧
      (readU64 (writeU64 emptyPacket v) prior).1.m_isValid = true) ∧
    (∀ v : Int, -(2 ^ 63) ≤ v → v < 2 ^ 63 → ∀ prior : Int,
      (readI64 (writeI64 emptyPacket v) prior).2 = v ∧
      (readI64 (writeI64 emptyPacket v) prior).1.m_isValid = true) ∧
    (∀ bits : List Nat, bits.length = 4 → ∀ prior : List Nat,
      (readFloat (writeFloat emptyPacket bits) prior).2 = bits ∧
      (readFloat (writeFloat emptyPacket bits) prior).1.m_isValid = true) ∧
    (∀ bits : List Nat, bits.length = 8 → ∀ prior : List Nat,
      (readDouble (writeDouble emptyPacket bits) prior).2 = bits ∧
      (readDouble (writeDouble emptyPacket bits) prior).1.m_isValid = true) := by
  refine ⟨?_, ?_, ?_, ?_, ?_, ?_, ?_, ?_, ?_, ?_, ?_⟩
  · intro b prior
    cases b <;>
      simp [readBool, readN, checkSize, writeBool, writeU8, append, emptyPacket, bytesAt,
        decodeBE, U64_MOD]
  · intro v hv prior
    have hw : writeU8 emptyPacket v = ⟨[v], 0, 0, true⟩ := by
      simp [writeU8, append, emptyPacket]
    rw [readU8, hw, readN_write 1 _ (by simp) (by norm_num [U64_MOD]) prior]
    exact ⟨by simp [decodeBE], rfl⟩
  · intro v h1 h2 prior
    have hw : writeI8 emptyPacket v = ⟨[toUnsigned 1 v], 0, 0, true⟩ := by
      simp [writeI8, append, emptyPacket]
    rw [readI8, hw, readSigned_write 1 _ (by simp) (by norm_num [U64_MOD]) prior]
    refine ⟨?_, rfl⟩
    have : decodeBE [toUnsigned 1 v] = toUnsigned 1 v := by simp [decodeBE]
    rw [this, toSigned_toUnsigned1 v h1 h2]
  · intro v hv prior
    have hw : writeU16 emptyPacket v = ⟨encode16 v, 0, 0, true⟩ := by
      simp [writeU16, append, emptyPacket, encode16]
    rw [readU16, hw, readN_write 2 _ (by simp [encode16]) (by norm_num [U64_MOD]) prior]
    exact ⟨decode_encode16 v hv, rfl⟩
  · intro v h1 h2 prior
    have hw : writeI16 emptyPacket v = ⟨encode16 (toUnsigned 2 v), 0, 0, true⟩ := by
      simp [writeI16, append, emptyPacket, encode16]
    rw [readI16, hw, readSigned_write 2 _ (by simp [encode16]) (by norm_num [U64_MOD]) prior]
    refine ⟨?_, rfl⟩
    rw [decode_encode16 _ (by simpa using toUnsigned_lt 2 v), toSigned_toUnsigned2 v h1 h2]
  · intro v hv prior
    have hw : writeU32 emptyPacket v = ⟨encode32 v, 0, 0, true⟩ := by
      simp [writeU32, append, emptyPacket, encode32]
    rw [readU32, hw, readN_write 4 _ (by simp [encode32]) (by norm_num [U64_MOD]) prior]
    exact ⟨decode_encode32 v hv, rfl⟩
  · intro v h1 h2 prior
    have hw : writeI32 emptyPacket v = ⟨encode32 (toUnsigned 4 v), 0, 0, true⟩ := by
      simp [writeI32, append, emptyPacket, encode32]
    rw [readI32, hw, readSigned_write 4 _ (by simp [encode32]) (by norm_num [U64_MOD]) prior]
    refine ⟨?_, rfl⟩
    rw [decode_encode32 _ (by simpa using toUnsigned_lt 4 v), toSigned_toUnsigned4 v h1 h2]
  · intro v hv prior
    have hw : writeU64 emptyPacket v = ⟨encode64 v, 0, 0, true⟩ := by
      simp [writeU64, append, emptyPacket, encode64]
    rw [readU64, hw, readN_write 8 _ (by simp [encode64]) (by norm_num [U64_MOD]) prior]
    exact ⟨decode_encode64 v hv, rfl⟩
  · intro v h1 h2 prior
    have hw : writeI64 emptyPacket v = ⟨encode64 (toUnsigned 8 v), 0, 0, true⟩ := by
      simp [writeI64, append, emptyPacket, encode64]
    rw [readI64, hw, readSigned_write 8 _ (by simp [encode64]) (by norm_num [U64_MOD]) prior]
    refine ⟨?_, rfl⟩
    rw [decode_encode64 _ (by simpa using toUnsigned_lt 8 v), toSigned_toUnsigned8 v h1 h2]
  · intro bits h prior
    simp [readFloat, writeFloat, checkSize, append, emptyPacket, bytesAt, U64_MOD, h,
      List.take_of_length_le, h.le]
  · intro bits h prior
    simp [readDouble, writeDouble, checkSize, append, emptyPacket, bytesAt, U64_MOD, h,
      List.take_of_length_le, h.le]

/-- Witness for C1 at concrete values of every scalar type. -/
theorem packet_scalar_roundtrip_witness :
    (readBool (writeBool emptyPacket true) false).2 = true ∧
    (readU8 (writeU8 emptyPacket 200) 0).2 = 200 ∧
    (readI8 (writeI8 emptyPacket (-100)) 0).2 = -100 ∧
    (readU16 (writeU16 emptyPacket 50000) 0).2 = 50000 ∧
    (readI16 (writeI16 emptyPacket (-12345)) 0).2 = -12345 ∧
    (readU32 (writeU32 emptyPacket 3054611418) 0).2 = 3054611418 ∧
    (readI32 (writeI32 emptyPacket (-2000000000)) 0).2 = -2000000000 ∧
    (readU64 (writeU64 emptyPacket (2 ^ 63 + 5)) 0).2 = 2 ^ 63 + 5 ∧
    (readI64 (writeI64 emptyPacket (-(2 ^ 62))) 0).2 = -(2 ^ 62) ∧
    (readI64 (writeI64 emptyPacket (-(2 ^ 62))) 0).1.m_isValid = true ∧
    (readFloat (writeFloat emptyPacket [63, 128, 0, 0]) []).2 = [63, 128, 0, 0] ∧
    (readDouble (writeDouble emptyPacket [64, 9, 33, 251, 84, 68, 45, 24]) []).2 =
      [64, 9, 33, 251, 84, 68, 45, 24] :=
  ⟨(packet_scalar_roundtrip.1 true false).1,
   (packet_scalar_roundtrip.2.1 200 (by norm_num) 0).1,
   (packet_scalar_roundtrip.2.2.1 (-100) (by norm_num) (by norm_num) 0).1,
   (packet_scalar_roundtrip.2.2.2.1 50000 (by norm_num) 0).1,
   (packet_scalar_roundtrip.2.2.2.2.1 (-12345) (by norm_num) (by norm_num) 0).1,
   (packet_scalar_roundtrip.2.2.2.2.2.1 3054611418 (by norm_num) 0).1,
   (packet_scalar_roundtrip.2.2.2.2.2.2.1 (-2000000000) (by norm_num) (by norm_num) 0).1,
   (packet_scalar_roundtrip.2.2.2.2.2.2.2.1 (2 ^ 63 + 5) (by norm_num) 0).1,
   (packet_scalar_roundtrip.2.2.2.2.2.2.2.2.1 (-(2 ^ 62)) (by norm_num) (by norm_num) 0).1,
   (packet_scalar_roundtrip.2.2.2.2.2.2.2.2.1 (-(2 ^ 62)) (by norm_num) (by norm_num) 0).2,
   (packet_scalar_roundtrip.2.2.2.2.2.2.2.2.2.1 [63, 128, 0, 0] (by norm_num) []).1,
   (packet_scalar_roundtrip.2.2.2.2.2.2.2.2.2.2 [64, 9, 33, 251, 84, 68, 45, 24]
     (by norm_num) []).1⟩

/-! ## C2 -/

lemma append_isValid (p : Packet) (d : Option (List Nat)) (n : Nat) :
    (append p d n).m_isValid = p.m_isValid := by
  cases d with
  | none => rfl
  | some bytes => simp only [append]; split <;> rfl

lemma checkSize_false (p : Packet) (n : Nat) (h : p.m_isValid = false) :
    (checkSize p n).1.m_isValid = false ∧ (checkSize p n).2 = false := by
  simp [checkSize, h]

lemma checkSize_fst_invalid (p : Packet) (n : Nat) (h : p.m_isValid = false) :
    (checkSize p n).1.m_isValid = false := (checkSize_false p n h).1

lemma readN_invalid (n : Nat) (p : Packet) (prior : Nat) (h : p.m_isValid = false) :
    readN n p prior = ((checkSize p n).1, prior) := by
  simp [readN, (checkSize_false p n h).2]

lemma readSigned_invalid (n : Nat) (p : Packet) (prior : Int) (h : p.m_isValid = false) :
    readSigned n p prior = ((checkSize p n).1, prior) := by
  simp [readSigned, (checkSize_false p n h).2]

lemma readFloat_invalid (p : Packet) (prior : List Nat) (h : p.m_isValid = false) :
    readFloat p prior = ((checkSize p 4).1, prior) := by
  simp [readFloat, (checkSize_false p 4 h).2]

lemma readDouble_invalid (p : Packet) (prior : List Nat) (h : p.m_isValid = false) :
    readDouble p prior = ((checkSize p 8).1, prior) := by
  simp [readDouble, (checkSize_false p 8 h).2]

lemma applyOp_invalid (op : Op) (p : Packet) (h : p.m_isValid = false) :
    (applyOp p op).m_isValid = false := by
  cases op with
  | opAppend d n => rw [applyOp, append_isValid]; exact h
  | opReadBool =>
    simp [applyOp, readBool, readN_invalid 1 p 0 h, checkSize_fst_invalid p 1 h]
  | opReadI8 => simp [applyOp, readI8, readSigned_invalid 1 p 0 h, checkSize_fst_invalid p 1 h]
  | opReadU8 => simp [applyOp, readU8, readN_invalid 1 p 0 h, checkSize_fst_invalid p 1 h]
  | opReadI16 => simp [applyOp, readI16, readSigned_invalid 2 p 0 h, checkSize_fst_invalid p 2 h]
  | opReadU16 => simp [applyOp, readU16, readN_invalid 2 p 0 h, checkSize_fst_invalid p 2 h]
  | opReadI32 => simp [applyOp, readI32, readSigned_invalid 4 p 0 h, checkSize_fst_invalid p 4 h]
  | opReadU32 => simp [applyOp, readU32, readN_invalid 4 p 0 h, checkSize_fst_invalid p 4 h]
  | opReadI64 => simp [applyOp, readI64, readSigned_invalid 8 p 0 h, checkSize_fst_invalid p 8 h]
  | opReadU64 => simp [applyOp, readU64, readN_invalid 8 p 0 h, checkSize_fst_invalid p 8 h]
  | opReadFloat => simp [applyOp, readFloat_invalid p [] h, checkSize_fst_invalid p 4 h]
  | opReadDouble => simp [applyOp, readDouble_invalid p [] h, checkSize_fst_invalid p 8 h]
  | opReadCStr => simp [applyOp, readCStr, readN_invalid 4 p 0 h, checkSize_fst_invalid p 4 h]
  | opReadString => simp [applyOp, readString, readN_invalid 4 p 0 h, checkSize_fst_invalid p 4 h]
  | opReadWCStr => simp [applyOp, readWCStr, readN_invalid 4 p 0 h, checkSize_fst_invalid p 4 h]
  | opReadWString =>
    simp [applyOp, readWString, readN_invalid 4 p 0 h, checkSize_fst_invalid p 4 h]
  | opReadU32String =>
    simp [applyOp, readU32String, readN_invalid 4 p 0 h, checkSize_fst_invalid p 4 h]

/-- C2: once a packet's validity flag is false, no sequence of extraction
or append operations (every insertion operator funnels through `append`)
ever makes it true again; `clear()` is the operation that restores
validity. -/
theorem packet_invalid_sticky :
    (∀ (ops : List Op) (p : Packet), p.m_isValid = false →
      (ops.foldl applyOp p).m_isValid = false) ∧
    (∀ p : Packet, (clear p).m_isValid = true) := by
  constructor
  · intro ops
    induction ops with
    | nil => intro p h; simpa using h
    | cons op rest ih =>
      intro p h
      exact ih _ (applyOp_invalid op p h)
  · intro p
    rfl

/-- Witness for C2: an invalid packet stays invalid across a concrete
sequence of reads and appends, and `clear()` restores validity. -/
theorem packet_invalid_sticky_witness :
    (([Op.opReadU32, Op.opAppend (some [1, 2, 3]) 3, Op.opReadU8,
       Op.opReadString].foldl applyOp ⟨[], 0, 0, false⟩).m_isValid = false) ∧
    (clear ⟨[], 0, 0, false⟩).m_isValid = true :=
  ⟨packet_invalid_sticky.1 _ ⟨[], 0, 0, false⟩ rfl, packet_invalid_sticky.2 _⟩

/-! ## C3 -/

/-- C3 counterexample: extracting a `std::string` from an invalid packet
does NOT leave the output variable unmodified — `operator>>(std::string&)`
calls `data.clear()` unconditionally, so the caller's string "abc" is
emptied even though the extraction fails. -/
theorem readString_invalid_clears_output :
    ¬ (readString ⟨[], 0, 0, false⟩ [97, 98, 99]).2 = [97, 98, 99] := by
  decide

lemma checkSize_fst_isValid (p : Packet) (n : Nat) :
    (checkSize p n).1.m_isValid = (checkSize p n).2 := rfl

lemma readN_fail (n : Nat) (p : Packet) (prior : Nat) (h : (checkSize p n).2 = false) :
    readN n p prior = ((checkSize p n).1, prior) := by
  simp [readN, h]

lemma readSigned_fail (n : Nat) (p : Packet) (prior : Int) (h : (checkSize p n).2 = false) :
    readSigned n p prior = ((checkSize p n).1, prior) := by
  simp [readSigned, h]

lemma readFloat_fail (p : Packet) (prior : List Nat) (h : (checkSize p 4).2 = false) :
    readFloat p prior = ((checkSize p 4).1, prior) := by
  simp [readFloat, h]

lemma readDouble_fail (p : Packet) (prior : List Nat) (h : (checkSize p 8).2 = false) :
    readDouble p prior = ((checkSize p 8).1, prior) := by
  simp [readDouble, h]

/-- C3 amended: when a packet is already invalid, or an extraction fails
its `checkSize` bounds test, the scalar extraction operators and the
C-array overloads (`char*`, `wchar_t*`) leave the output unmodified — for
the string-like operators this covers both failure stages, the embedded
length read and the `checkSize(length [* 4])` test on the announced
characters; but the `std::string`, `std::wstring` and `std::u32string`
overloads clear the output unconditionally, so a failed extraction leaves
those outputs empty (and their result never depends on the output's prior
contents). -/
theorem packet_failed_extraction_outputs :
    (∀ p : Packet, p.m_isValid = false →
      ∀ (pb : Bool) (pi : Int) (pn : Nat) (ps : List Nat),
        (readBool p pb).2 = pb ∧
        (readU8 p pn).2 = pn ∧ (readU16 p pn).2 = pn ∧
        (readU32 p pn).2 = pn ∧ (readU64 p pn).2 = pn ∧
        (readI8 p pi).2 = pi ∧ (readI16 p pi).2 = pi ∧
        (readI32 p pi).2 = pi ∧ (readI64 p pi).2 = pi ∧
        (readFloat p ps).2 = ps ∧ (readDouble p ps).2 = ps ∧
        (readCStr p ps).2 = ps ∧ (readWCStr p ps).2 = ps ∧
        (readString p ps).2 = [] ∧ (readWString p ps).2 = [] ∧
        (readU32String p ps).2 = []) ∧
    (∀ (n : Nat) (p : Packet) (prior : Nat), (checkSize p n).2 = false →
      (readN n p prior).2 = prior) ∧
    (∀ (p : Packet) (ps ps' : List Nat),
      (readString p ps).2 = (readString p ps').2 ∧
      (readWString p ps).2 = (readWString p ps').2 ∧
      (readU32String p ps).2 = (readU32String p ps').2) ∧
    (∀ (p : Packet) (pb : Bool) (pi : Int) (pn : Nat) (ps : List Nat),
      ((checkSize p 1).2 = false →
        (readBool p pb).2 = pb ∧ (readU8 p pn).2 = pn ∧ (readI8 p pi).2 = pi) ∧
      ((checkSize p 2).2 = false →
        (readU16 p pn).2 = pn ∧ (readI16 p pi).2 = pi) ∧
      ((checkSize p 4).2 = false →
        (readU32 p pn).2 = pn ∧ (readI32 p pi).2 = pi ∧ (readFloat p ps).2 = ps) ∧
      ((checkSize p 8).2 = false →
        (readU64 p pn).2 = pn ∧ (readI64 p pi).2 = pi ∧ (readDouble p ps).2 = ps)) ∧
    (∀ (p : Packet) (ps : List Nat),
      ((checkSize p 4).2 = false →
        (readCStr p ps).2 = ps ∧ (readWCStr p ps).2 = ps ∧
        (readString p ps).2 = [] ∧ (readWString p ps).2 = [] ∧
        (readU32String p ps).2 = []) ∧
      (0 < (readN 4 p 0).2 →
        (checkSize (readN 4 p 0).1 (readN 4 p 0).2).2 = false →
        (readCStr p ps).2 = ps ∧ (readString p ps).2 = []) ∧
      (0 < (readN 4 p 0).2 →
        (checkSize (readN 4 p 0).1 ((readN 4 p 0).2 * 4)).2 = false →
        (readWCStr p ps).2 = ps ∧ (readWString p ps).2 = [] ∧
        (readU32String p ps).2 = [])) := by
  refine ⟨?_, ?_, ?_, ?_, ?_⟩
  · intro p h pb pi pn ps
    refine ⟨?_, ?_, ?_, ?_, ?_, ?_, ?_, ?_, ?_, ?_, ?_, ?_, ?_, ?_, ?_, ?_⟩
    · simp [readBool, readN_invalid 1 p 0 h, checkSize_fst_invalid p 1 h]
    · simp [readU8, readN_invalid 1 p pn h]
    · simp [readU16, readN_invalid 2 p pn h]
    · simp [readU32, readN_invalid 4 p pn h]
    · simp [readU64, readN_invalid 8 p pn h]
    · simp [readI8, readSigned_invalid 1 p pi h]
    · simp [readI16, readSigned_invalid 2 p pi h]
    · simp [readI32, readSigned_invalid 4 p pi h]
    · simp [readI64, readSigned_invalid 8 p pi h]
    · simp [readFloat_invalid p ps h]
    · simp [readDouble_invalid p ps h]
    · simp [readCStr, readN_invalid 4 p 0 h]
    · simp [readWCStr, readN_invalid 4 p 0 h]
    · simp [readString, readN_invalid 4 p 0 h]
    · simp [readWString, readN_invalid 4 p 0 h]
    · simp [readU32String, readN_invalid 4 p 0 h]
  · intro n p prior h
    simp [readN, h]
  · intro p ps ps'
    exact ⟨rfl, rfl, rfl⟩
  · intro p pb pi pn ps
    refine ⟨?_, ?_, ?_, ?_⟩
    · intro h
      refine ⟨?_, ?_, ?_⟩
      · simp [readBool, readN_fail 1 p 0 h, checkSize_fst_isValid p 1, h]
      · simp [readU8, readN_fail 1 p pn h]
      · simp [readI8, readSigned_fail 1 p pi h]
    · intro h
      exact ⟨by simp [readU16, readN_fail 2 p pn h],
        by simp [readI16, readSigned_fail 2 p pi h]⟩
    · intro h
      exact ⟨by simp [readU32, readN_fail 4 p pn h],
        by simp [readI32, readSigned_fail 4 p pi h],
        by simp [readFloat_fail p ps h]⟩
    · intro h
      exact ⟨by simp [readU64, readN_fail 8 p pn h],
        by simp [readI64, readSigned_fail 8 p pi h],
        by simp [readDouble_fail p ps h]⟩
  · intro p ps
    refine ⟨?_, ?_, ?_⟩
    · intro h
      exact ⟨by simp [readCStr, readN_fail 4 p 0 h],
        by simp [readWCStr, readN_fail 4 p 0 h],
        by simp [readString, readN_fail 4 p 0 h],
        by simp [readWString, readN_fail 4 p 0 h],
        by simp [readU32String, readN_fail 4 p 0 h]⟩
    · intro hlen hc
      exact ⟨by simp [readCStr, hlen, hc], by simp [readString, hlen, hc]⟩
    · intro hlen hc
      exact ⟨by simp [readWCStr, hlen, hc], by simp [readWString, hlen, hc],
        by simp [readU32String, hlen, hc]⟩

/-- Witness for C3 amended, at an invalid packet; at an empty valid
packet, where every fixed-width `checkSize` fails (the spec's reading
from an empty packet); and at a valid packet announcing a 5-character
string with no characters present, where the second-stage `checkSize`
fails. -/
theorem packet_failed_extraction_outputs_witness :
    (readU32 (⟨[], 0, 0, false⟩ : Packet) 7).2 = 7 ∧
    (readString (⟨[], 0, 0, false⟩ : Packet) [97, 98, 99]).2 = [] ∧
    (readN 4 emptyPacket 7).2 = 7 ∧
    (readBool emptyPacket true).2 = true ∧
    (readI32 emptyPacket 7).2 = 7 ∧
    (readDouble emptyPacket [3]).2 = [3] ∧
    (readCStr emptyPacket [97]).2 = [97] ∧
    (readString emptyPacket [97]).2 = [] ∧
    (readCStr (⟨[0, 0, 0, 5], 0, 0, true⟩ : Packet) [97]).2 = [97] ∧
    (readString (⟨[0, 0, 0, 5], 0, 0, true⟩ : Packet) [97]).2 = [] ∧
    (readWCStr (⟨[0, 0, 0, 5], 0, 0, true⟩ : Packet) [97]).2 = [97] ∧
    (readWString (⟨[0, 0, 0, 5], 0, 0, true⟩ : Packet) [97]).2 = [] :=
  ⟨(packet_failed_extraction_outputs.1 ⟨[], 0, 0, false⟩ rfl false 0 7 []).2.2.2.1,
   (packet_failed_extraction_outputs.1 ⟨[], 0, 0, false⟩ rfl false 0 7
     [97, 98, 99]).2.2.2.2.2.2.2.2.2.2.2.2.2.1,
   packet_failed_extraction_outputs.2.1 4 emptyPacket 7 (by decide),
   ((packet_failed_extraction_outputs.2.2.2.1 emptyPacket true 7 7 [3]).1 (by decide)).1,
   ((packet_failed_extraction_outputs.2.2.2.1 emptyPacket true 7 7 [3]).2.2.1
     (by decide)).2.1,
   ((packet_failed_extraction_outputs.2.2.2.1 emptyPacket true 7 7 [3]).2.2.2
     (by decide)).2.2,
   ((packet_failed_extraction_outputs.2.2.2.2 emptyPacket [97]).1 (by decide)).1,
   ((packet_failed_extraction_outputs.2.2.2.2 emptyPacket [97]).1 (by decide)).2.2.1,
   ((packet_failed_extraction_outputs.2.2.2.2 ⟨[0, 0, 0, 5], 0, 0, true⟩ [97]).2.1
     (by decide) (by decide)).1,
   ((packet_failed_extraction_outputs.2.2.2.2 ⟨[0, 0, 0, 5], 0, 0, true⟩ [97]).2.1
     (by decide) (by decide)).2,
   ((packet_failed_extraction_outputs.2.2.2.2 ⟨[0, 0, 0, 5], 0, 0, true⟩ [97]).2.2
     (by decide) (by decide)).1,
   ((packet_failed_extraction_outputs.2.2.2.2 ⟨[0, 0, 0, 5], 0, 0, true⟩ [97]).2.2
     (by decide) (by decide)).2.1⟩

/-! ## C5 -/

/-- C5: `UdpSocket::send(data, size, address, port)` rejects every payload
larger than `MaxDatagramSize` with `Error`, without invoking the OS
`sendto` call (so no bytes, partial or otherwise, are transmitted),
whatever the OS would have answered. -/
theorem udpSend_oversized (size : Nat) (osSent : Int) (errStatus : Status)
    (h : MaxDatagramSize < size) :
    udpSend size osSent errStatus = (Status.Error, false) := by
  simp [udpSend, h]

/-- Witness for C5 at a payload one byte over the ceiling. -/
theorem udpSend_oversized_witness :
    udpSend (MaxDatagramSize + 1) 100 Status.NotReady = (Status.Error, false) :=
  udpSend_oversized (MaxDatagramSize + 1) 100 Status.NotReady (by norm_num)

/-! ## C6 -/

/-- C6: for every port, `UdpSocket::bind` and `TcpListener::listen` return
`Error` when the address equals (under the source's `operator==`) the
broadcast address, and neither the OS `bind` nor the OS `listen` call is
performed in that case. -/
theorem bind_listen_reject_broadcast (port : Nat) (address : IpAddress)
    (h : ipEq address Broadcast = true) (osBindFails osListenFails : Bool) :
    udpBind port address osBindFails = (Status.Error, false) ∧
    tcpListen port address osBindFails osListenFails = (Status.Error, false, false) := by
  constructor <;> simp [udpBind, tcpListen, h]

/-- Witness for C6 at the broadcast constant itself. -/
theorem bind_listen_reject_broadcast_witness :
    udpBind 8080 Broadcast false = (Status.Error, false) ∧
    tcpListen 8080 Broadcast false false = (Status.Error, false, false) :=
  bind_listen_reject_broadcast 8080 Broadcast (by decide) false false

/-! ## C7 -/

/-- C7: constructing an `IpAddress` from four bytes and calling
`toString()` yields exactly the dotted-decimal string "b0.b1.b2.b3". -/
theorem ipFromBytes_toString (b0 b1 b2 b3 : Nat)
    (h0 : b0 < 256) (h1 : b1 < 256) (h2 : b2 < 256) (h3 : b3 < 256) :
    ipToString (ipFromBytes b0 b1 b2 b3) =
      Nat.repr b0 ++ "." ++ Nat.repr b1 ++ "." ++ Nat.repr b2 ++ "." ++ Nat.repr b3 := by
  have ha : (b0 * 2 ^ 24 + b1 * 2 ^ 16 + b2 * 2 ^ 8 + b3) % 2 ^ 32 =
      b0 * 2 ^ 24 + b1 * 2 ^ 16 + b2 * 2 ^ 8 + b3 := Nat.mod_eq_of_lt (by omega)
  simp only [ipToString, ipFromBytes, ha]
  have e0 : (b0 * 2 ^ 24 + b1 * 2 ^ 16 + b2 * 2 ^ 8 + b3) / 2 ^ 24 % 256 = b0 := by omega
  have e1 : (b0 * 2 ^ 24 + b1 * 2 ^ 16 + b2 * 2 ^ 8 + b3) / 2 ^ 16 % 256 = b1 := by omega
  have e2 : (b0 * 2 ^ 24 + b1 * 2 ^ 16 + b2 * 2 ^ 8 + b3) / 2 ^ 8 % 256 = b2 := by omega
  have e3 : (b0 * 2 ^ 24 + b1 * 2 ^ 16 + b2 * 2 ^ 8 + b3) % 256 = b3 := by omega
  rw [e0, e1, e2, e3]

/-- Witness for C7 at the loopback address bytes. -/
theorem ipFromBytes_toString_witness :
    ipToString (ipFromBytes 127 0 0 1) = "127.0.0.1" :=
  (ipFromBytes_toString 127 0 0 1 (by norm_num) (by norm_num) (by norm_num)
    (by norm_num)).trans (by decide)

/-! ## C8 -/

/-- C8: `Socket::close()` is idempotent — after one call the handle is the
invalid sentinel, and a second call leaves the socket unchanged and
releases no OS resource. -/
theorem socketClose_idempotent (s : Socket) :
    (socketClose s).1.m_socket = invalidSocket ∧
    socketClose (socketClose s).1 = ((socketClose s).1, false) := by
  unfold socketClose
  by_cases h : s.m_socket = invalidSocket <;> simp [h]

/-! ## C9 -/

/-- C9: `UdpSocket::receive(Packet&, ...)` clears the destination packet
unconditionally before storing anything; whenever the status is not
`Done` or zero bytes were received, the caller's packet ends up empty
(no data, read cursor 0, valid) regardless of its prior contents. -/
theorem udpReceivePacket_clears (dest : Packet) (status : Status) (received : Nat)
    (buf : List Nat) (h : status ≠ Status.Done ∨ received = 0) :
    (udpReceivePacket dest status received buf).1.m_data = [] ∧
    (udpReceivePacket dest status received buf).1.m_readPos = 0 ∧
    (udpReceivePacket dest status received buf).1.m_isValid = true ∧
    (udpReceivePacket dest status received buf).1 = clear dest := by
  have hcond : ¬ (status = Status.Done ∧ 0 < received) := by
    rcases h with h | h
    · exact fun hc => h hc.1
    · omega
  simp [udpReceivePacket, hcond, clear]

/-- Witness for C9: a `NotReady` receive empties a previously filled,
invalid packet. -/
theorem udpReceivePacket_clears_witness :
    (udpReceivePacket ⟨[9, 9, 9], 2, 0, false⟩ Status.NotReady 5 [1, 2]).1.m_data = [] ∧
    (udpReceivePacket ⟨[9, 9, 9], 2, 0, false⟩ Status.NotReady 5 [1, 2]).1.m_isValid = true :=
  ⟨(udpReceivePacket_clears ⟨[9, 9, 9], 2, 0, false⟩ Status.NotReady 5 [1, 2]
      (Or.inl (by decide))).1,
   (udpReceivePacket_clears ⟨[9, 9, 9], 2, 0, false⟩ Status.NotReady 5 [1, 2]
      (Or.inl (by decide))).2.2.1⟩

/-! ## C10 -/

/-- C10: `Packet::append(data, sizeInBytes)` with a null pointer or a zero
size leaves the whole packet state (buffer, cursors, validity) unchanged. -/
theorem append_null_or_zero (p : Packet) (data : Option (List Nat)) (n : Nat)
    (h : data = none ∨ n = 0) : append p data n = p := by
  rcases h with h | h
  · rw [h]; rfl
  · subst h
    cases data with
    | none => rfl
    | some bytes => simp [append]

/-- Witness for C10 on a nonempty, partially read, invalid packet. -/
theorem append_null_or_zero_witness :
    append ⟨[1, 2], 1, 3, false⟩ none 5 = ⟨[1, 2], 1, 3, false⟩ ∧
    append ⟨[1, 2], 1, 3, false⟩ (some [7, 8]) 0 = ⟨[1, 2], 1, 3, false⟩ :=
  ⟨append_null_or_zero _ none 5 (Or.inl rfl),
   append_null_or_zero _ (some [7, 8]) 0 (Or.inr rfl)⟩

/-! ## C4 -/

lemma deliver_append (a : List Nat) (st : PendingPacket) (b : List Nat)
    (h : (deliver st a).2 = none) :
    deliver st (a ++ b) = deliver (deliver st a).1 b := by
  induction a generalizing st with
  | nil =>
    by_cases hc : isComplete st
    · simp [deliver, hc] at h
    · simp [deliver, hc]
  | cons x xs ih =>
    by_cases hc : isComplete st
    · simp [deliver, hc] at h
    · by_cases h4 : st.sizeReceived < 4
      · have e : deliver st (x :: xs) =
            deliver ⟨st.size * 256 + x, st.sizeReceived + 1, st.data⟩ xs := by
          simp [deliver, hc, h4]
        have e2 : deliver st (x :: (xs ++ b)) =
            deliver ⟨st.size * 256 + x, st.sizeReceived + 1, st.data⟩ (xs ++ b) := by
          simp [deliver, hc, h4]
        rw [List.cons_append, e2, ih _ (by rw [e] at h; exact h), ← e]
      · have e : deliver st (x :: xs) =
            deliver ⟨st.size, st.sizeReceived, st.data ++ [x]⟩ xs := by
          simp [deliver, hc, h4]
        have e2 : deliver st (x :: (xs ++ b)) =
            deliver ⟨st.size, st.sizeReceived, st.data ++ [x]⟩ (xs ++ b) := by
          simp [deliver, hc, h4]
        rw [List.cons_append, e2, ih _ (by rw [e] at h; exact h), ← e]

lemma foldl_feedOne_eq (tl : List Nat) : ∀ (b : Nat) (st : PendingPacket),
    (∀ pre post, b :: tl = pre ++ post → post ≠ [] → (deliver st pre).2 = none) →
    List.foldl feedOne (st, none) (b :: tl) = deliver st (b :: tl) := by
  induction tl with
  | nil =>
    intro b st H
    rfl
  | cons c tl' ih =>
    intro b st H
    have hb : (deliver st [b]).2 = none := H [b] (c :: tl') rfl (by simp)
    have hpair : deliver st [b] = ((deliver st [b]).1, none) := by rw [← hb]
    have H' : ∀ pre post, c :: tl' = pre ++ post → post ≠ [] →
        (deliver (deliver st [b]).1 pre).2 = none := by
      intro pre post hsplit hpost
      have hx : (deliver st ([b] ++ pre)).2 = none := by
        refine H ([b] ++ pre) post ?_ hpost
        simp [hsplit]
      rwa [deliver_append [b] st pre hb] at hx
    calc List.foldl feedOne (st, none) (b :: c :: tl')
        = List.foldl feedOne (deliver st [b]) (c :: tl') := rfl
      _ = List.foldl feedOne ((deliver st [b]).1, none) (c :: tl') := by rw [← hpair]
      _ = deliver (deliver st [b]).1 (c :: tl') := ih c (deliver st [b]).1 H'
      _ = deliver st (b :: c :: tl') := by
          have hx := deliver_append [b] st (c :: tl') hb
          simpa using hx.symm

lemma deliver_hdr (L : Nat) (hL : L < 2 ^ 32) (rest : List Nat) :
    deliver emptyPending (encode32 L ++ rest) = deliver ⟨L, 4, []⟩ rest := by
  simp [encode32, deliver, isComplete, emptyPending]
  congr 1
  simp only [PendingPacket.mk.injEq, and_true, true_and]
  omega

lemma deliver_payload_incomplete (L : Nat) (p : List Nat) : ∀ (d : List Nat),
    d.length + p.length < L →
    deliver ⟨L, 4, d⟩ p = (⟨L, 4, d ++ p⟩, none) := by
  induction p with
  | nil =>
    intro d h
    simp only [List.length_nil] at h
    have hc : ¬ (isComplete ⟨L, 4, d⟩ = true) := by
      simp [isComplete]; omega
    simp [deliver, hc]
  | cons x xs ih =>
    intro d h
    simp only [List.length_cons] at h
    have hc : ¬ (isComplete ⟨L, 4, d⟩ = true) := by
      simp [isComplete]; omega
    have e : deliver ⟨L, 4, d⟩ (x :: xs) = deliver ⟨L, 4, d ++ [x]⟩ xs := by
      simp [deliver, hc]
    rw [e, ih (d ++ [x]) (by simp; omega)]
    simp

lemma deliver_payload_complete (L : Nat) (p : List Nat) : ∀ (d : List Nat),
    d.length + p.length = L →
    deliver ⟨L, 4, d⟩ p = (emptyPending, some (d ++ p)) := by
  induction p with
  | nil =>
    intro d h
    simp only [List.length_nil] at h
    have hc : isComplete ⟨L, 4, d⟩ = true := by
      simp [isComplete]; omega
    simp [deliver, hc]
  | cons x xs ih =>
    intro d h
    simp only [List.length_cons] at h
    have hc : ¬ (isComplete ⟨L, 4, d⟩ = true) := by
      simp [isComplete]; omega
    have e : deliver ⟨L, 4, d⟩ (x :: xs) = deliver ⟨L, 4, d ++ [x]⟩ xs := by
      simp [deliver, hc]
    rw [e, ih (d ++ [x]) (by simp; omega)]
    simp

lemma deliver_take_hdr (L : Nat) (k : Nat) (hk : k < 4) :
    (deliver emptyPending ((encode32 L).take k)).2 = none := by
  interval_cases k <;> simp [deliver, isComplete, emptyPending, encode32]

lemma deliver_proper_split_none (payload : List Nat) (hL : payload.length < 2 ^ 32)
    (pre post : List Nat)
    (hsplit : encode32 payload.length ++ payload = pre ++ post) (hpost : post ≠ []) :
    (deliver emptyPending pre).2 = none := by
  have hlen : pre.length + post.length = 4 + payload.length := by
    have hx := congrArg List.length hsplit
    simp [encode32] at hx
    omega
  have hpostpos : 0 < post.length := List.length_pos.mpr hpost
  have hpre : pre = (encode32 payload.length ++ payload).take pre.length := by
    rw [hsplit, List.take_left]
  by_cases hk : pre.length < 4
  · have hq : pre = (encode32 payload.length).take pre.length := by
      conv_lhs => rw [hpre]
      rw [List.take_append_of_le_length (by simp [encode32]; omega)]
    rw [hq]
    exact deliver_take_hdr payload.length pre.length hk
  · push_neg at hk
    obtain ⟨j, hj⟩ : ∃ j, pre.length = 4 + j := ⟨pre.length - 4, by omega⟩
    have hjlt : j < payload.length := by omega
    have hq : pre = encode32 payload.length ++ payload.take j := by
      conv_lhs => rw [hpre, hj]
      rw [show (4 : Nat) + j = (encode32 payload.length).length + j from by
        simp [encode32], List.take_append]
    rw [hq, deliver_hdr payload.length hL (payload.take j),
      deliver_payload_incomplete payload.length (payload.take j) []
        (by simp; omega)]

/-- C4: delivering the frame `[4-byte big-endian length][payload]` to the
stream socket's framed receive one byte at a time produces, once the frame
completes, exactly the result of delivering all the bytes in one call;
that result is the payload, with the pending-packet state reset to empty;
and filling the destination Packet (clear + onReceive) from the payload
yields the same packet whatever the destination held before. -/
theorem stream_reassembly_equiv (payload : List Nat) (hL : payload.length < 2 ^ 32) :
    List.foldl feedOne (emptyPending, none) (encode32 payload.length ++ payload) =
      deliver emptyPending (encode32 payload.length ++ payload) ∧
    deliver emptyPending (encode32 payload.length ++ payload) =
      (emptyPending, some payload) ∧
    ∀ dest : Packet,
      deliverToPacket dest payload = ⟨payload, 0, dest.m_sendPos, true⟩ := by
  have hframe : encode32 payload.length ++ payload =
      (payload.length / 2 ^ 24 % 256) :: ((payload.length / 2 ^ 16 % 256) ::
        (payload.length / 2 ^ 8 % 256) :: (payload.length % 256) :: payload) := by
    simp [encode32]
  refine ⟨?_, ?_, ?_⟩
  · rw [hframe]
    refine foldl_feedOne_eq _ _ emptyPending ?_
    intro pre post hsplit hpost
    refine deliver_proper_split_none payload hL pre post ?_ hpost
    rw [hframe]
    exact hsplit
  · rw [deliver_hdr payload.length hL payload,
      deliver_payload_complete payload.length payload [] (by simp)]
    simp
  · intro dest
    cases payload with
    | nil => simp [deliverToPacket, append, clear]
    | cons x xs => simp [deliverToPacket, append, clear, List.take_length]

/-- Witness for C4: a 2-byte payload delivered byte-by-byte and in one
call, plus the fill of a dirty destination packet. -/
theorem stream_reassembly_equiv_witness :
    List.foldl feedOne (emptyPending, none) (encode32 2 ++ [5, 6]) =
      deliver emptyPending (encode32 2 ++ [5, 6]) ∧
    deliver emptyPending (encode32 2 ++ [5, 6]) = (emptyPending, some [5, 6]) ∧
    deliverToPacket ⟨[9], 3, 7, false⟩ [5, 6] = ⟨[5, 6], 0, 7, true⟩ :=
  ⟨(stream_reassembly_equiv [5, 6] (by norm_num)).1,
   (stream_reassembly_equiv [5, 6] (by norm_num)).2.1,
   (stream_reassembly_equiv [5, 6] (by norm_num)).2.2 ⟨[9], 3, 7, false⟩⟩

end Sockpp
